import Mathlib

/- Shallow embedding of the micro:bit snake game (src/source/main.cpp).

   Modelling notes.
   * Coordinates are pairs of int8_t in the source; every value the program ever
     stores or computes lies in [-1, 5], far inside the int8_t range, so the
     components are modelled as Int with no wrap.
   * The tail is a fixed C array of MAX_SNAKE_LENGTH slots of which only the
     first tailLength are ever read (coordsInSnake, displayGameState and
     getStepOutcome all iterate i < tailLength, and moveSnake reads indices
     below tailLength before writing).  It is therefore modelled as the list of
     those first tailLength entries; tailLength is the list length.
   * score and speed are uint8_t: their increments are taken mod 256.
   * rand() delivers an arbitrary stream of non-negative values, modelled as a
     List Nat argument that is consumed; the do-while retry loop of
     getRandomCoords returns none when the stream runs out (the C loop would
     still be spinning), so every random-consuming operation is Option-valued.
   * The global variables game and currentTurn form the process state
     (ProcState).  The host main loop only calls stepGame while the status is
     ONGOING and only calls resetGame from a terminal status; the Reachable
     relation mirrors exactly those call sites plus the button interrupts,
     which can fire at any time. -/

def MAX_SNAKE_LENGTH : Nat := 24

def GRID_SIZE : Int := 5

structure Coords where
  row : Int
  col : Int
deriving DecidableEq, Repr

inductive Direction where
  | UP
  | DOWN
  | LEFT
  | RIGHT
deriving DecidableEq, Repr

inductive Turn where
  | TURN_NONE
  | TURN_LEFT
  | TURN_RIGHT
deriving DecidableEq, Repr

inductive GameStatus where
  | ONGOING
  | WON
  | LOST
deriving DecidableEq, Repr

inductive StepOutcome where
  | MOVE
  | EAT
  | COLLISION
  | FULL
deriving DecidableEq, Repr

structure Snake where
  head : Coords
  tail : List Coords
  direction : Direction
deriving DecidableEq, Repr

/-- The tailLength field of the C Snake struct: the number of live tail
slots, which in this embedding is the length of the tail list. -/
def Snake.tailLength (s : Snake) : Nat := s.tail.length

structure Game where
  snake : Snake
  foodCoords : Coords
  speed : Nat
  status : GameStatus
  score : Nat
deriving DecidableEq, Repr

/-- The two globals of the program: `game` and `currentTurn`. -/
structure ProcState where
  game : Game
  currentTurn : Turn
deriving DecidableEq, Repr

/-- bool coordsEqual(Coords a, Coords b). -/
def coordsEqual (a b : Coords) : Bool :=
  a.row == b.row && a.col == b.col

/-- bool coordsInSnake(Coords coords): head check, then a scan of the first
tailLength tail slots. -/
def coordsInSnake (s : Snake) (coords : Coords) : Bool :=
  coordsEqual coords s.head || s.tail.any (fun t => coordsEqual coords t)

/-- game.snake.tail[0] as read by getStepOutcome.  The tail list is nonempty in
every reachable state (tailLength starts at 1 and never shrinks), so the
default value is never the result of this read. -/
def tailZero (s : Snake) : Coords :=
  s.tail.headD ⟨0, 0⟩

/-- Coords getRandomCoords(void): the do-while loop drawing rand() % GRID_SIZE
pairs until the cell is free.  The rand() stream is the list argument; none
models exhausting the modelled stream (the C loop would still be spinning). -/
def getRandomCoords (s : Snake) : List Nat → Option (Coords × List Nat)
  | r1 :: r2 :: rest =>
    let coords : Coords := ⟨((r1 % GRID_SIZE.toNat : Nat) : Int), ((r2 % GRID_SIZE.toNat : Nat) : Int)⟩
    if coordsInSnake s coords then getRandomCoords s rest else some (coords, rest)
  | _ => none

/-- void placeFood(void): game.foodCoords = getRandomCoords(). -/
def placeFood (g : Game) (rng : List Nat) : Option (Game × List Nat) :=
  match getRandomCoords g.snake rng with
  | some (c, rest) => some ({ g with foodCoords := c }, rest)
  | none => none

/-- Coords wraparound(Coords coords): per-axis clamp of an out-of-range
component to the opposite edge. -/
def wraparound (coords : Coords) : Coords :=
  { row := if coords.row < 0 then GRID_SIZE - 1 else if GRID_SIZE ≤ coords.row then 0 else coords.row
    col := if coords.col < 0 then GRID_SIZE - 1 else if GRID_SIZE ≤ coords.col then 0 else coords.col }

/-- bool isOutOfBounds(Coords coords). -/
def isOutOfBounds (coords : Coords) : Bool :=
  decide (coords.row < 0) || decide (GRID_SIZE ≤ coords.row) ||
    decide (coords.col < 0) || decide (GRID_SIZE ≤ coords.col)

/-- Coords getNextMove(void): move one cell in the current direction, then
wrap if out of bounds. -/
def getNextMove (s : Snake) : Coords :=
  let nextMove : Coords :=
    match s.direction with
    | Direction.UP => { s.head with row := s.head.row - 1 }
    | Direction.DOWN => { s.head with row := s.head.row + 1 }
    | Direction.LEFT => { s.head with col := s.head.col - 1 }
    | Direction.RIGHT => { s.head with col := s.head.col + 1 }
  if isOutOfBounds nextMove then wraparound nextMove else nextMove

/-- StepOutcome getStepOutcome(void): collision check (exempting tail[0]),
then food check (FULL at tailLength >= MAX_SNAKE_LENGTH - 1), else MOVE. -/
def getStepOutcome (g : Game) : StepOutcome :=
  let nextMove := getNextMove g.snake
  if coordsInSnake g.snake nextMove && !coordsEqual nextMove (tailZero g.snake) then
    StepOutcome.COLLISION
  else if coordsEqual nextMove g.foodCoords then
    if MAX_SNAKE_LENGTH - 1 ≤ g.snake.tailLength then StepOutcome.FULL else StepOutcome.EAT
  else
    StepOutcome.MOVE

/-- void moveSnake(Coords coords, bool extend).  Non-extend: shift
tail[i] = tail[i+1] for i < tailLength-1 then tail[tailLength-1] = head,
i.e. drop the first list entry and append the old head.  Extend: shift
tail[i] = tail[i-1] downward from i = tailLength then tail[0] = head and
tailLength++, i.e. cons the old head onto the list.  (At tailLength = 0 the
non-extend branch of the C code would write tail[-1]; that situation is
unreachable because tailLength starts at 1 and never decreases.) -/
def moveSnake (s : Snake) (coords : Coords) (extend : Bool) : Snake :=
  if extend then
    { head := coords, tail := s.head :: s.tail, direction := s.direction }
  else
    { head := coords, tail := s.tail.drop 1 ++ [s.head], direction := s.direction }

/-- void handleStepOutcome(StepOutcome outcome): recomputes getNextMove and
mutates the game according to the outcome tag.  EAT consumes random input for
placeFood, so the result is Option-valued. -/
def handleStepOutcome (g : Game) (outcome : StepOutcome) (rng : List Nat) :
    Option (Game × List Nat) :=
  let nextMove := getNextMove g.snake
  match outcome with
  | StepOutcome.COLLISION => some ({ g with status := GameStatus.LOST }, rng)
  | StepOutcome.FULL =>
    some ({ g with snake := moveSnake g.snake nextMove true, status := GameStatus.WON }, rng)
  | StepOutcome.EAT =>
    match placeFood { g with snake := moveSnake g.snake nextMove true } rng with
    | some (g2, rest) =>
      let newScore := (g2.score + 1) % 256
      let g3 := { g2 with score := newScore }
      let g4 := if newScore % 5 = 0 then { g3 with speed := (g3.speed + 1) % 256 } else g3
      some (g4, rest)
    | none => none
  | StepOutcome.MOVE =>
    some ({ g with snake := moveSnake g.snake nextMove false }, rng)

/-- void turnSnake(Turn turn): the two 90-degree rotation tables. -/
def turnSnake (d : Direction) (t : Turn) : Direction :=
  match t with
  | Turn.TURN_LEFT =>
    match d with
    | Direction.UP => Direction.LEFT
    | Direction.DOWN => Direction.RIGHT
    | Direction.LEFT => Direction.DOWN
    | Direction.RIGHT => Direction.UP
  | Turn.TURN_RIGHT =>
    match d with
    | Direction.UP => Direction.RIGHT
    | Direction.DOWN => Direction.LEFT
    | Direction.LEFT => Direction.UP
    | Direction.RIGHT => Direction.DOWN
  | Turn.TURN_NONE => d

/-- The first two lines of stepGame: turnSnake(currentTurn) applied to the
game (only the direction field changes). -/
def applyTurn (p : ProcState) : Game :=
  { p.game with snake := { p.game.snake with direction := turnSnake p.game.snake.direction p.currentTurn } }

/-- void stepGame(void): apply and clear the pending turn, classify via
getStepOutcome, then handleStepOutcome. -/
def stepGame (p : ProcState) (rng : List Nat) : Option (ProcState × List Nat) :=
  let g1 := applyTurn p
  match handleStepOutcome g1 (getStepOutcome g1) rng with
  | some (g2, rest) => some (⟨g2, Turn.TURN_NONE⟩, rest)
  | none => none

/-- void handleButtonA(MicroBitEvent e): currentTurn = TURN_LEFT. -/
def handleButtonA (p : ProcState) : ProcState :=
  { p with currentTurn := Turn.TURN_LEFT }

/-- void handleButtonB(MicroBitEvent e): currentTurn = TURN_RIGHT. -/
def handleButtonB (p : ProcState) : ProcState :=
  { p with currentTurn := Turn.TURN_RIGHT }

/-- void initGame(void): the fixed initial snake and counters, then placeFood.
The foodCoords value before placeFood overwrites it is irrelevant; (0,0) stands
in for it. -/
def initGame (rng : List Nat) : Option (Game × List Nat) :=
  placeFood
    { snake := { head := ⟨2, 2⟩, tail := [⟨2, 1⟩], direction := Direction.RIGHT }
      foodCoords := ⟨0, 0⟩
      speed := 1
      status := GameStatus.ONGOING
      score := 0 } rng

/-- void resetGame(void): initGame(); currentTurn = TURN_NONE. -/
def resetGame (rng : List Nat) : Option (ProcState × List Nat) :=
  match initGame rng with
  | some (g, rest) => some (⟨g, Turn.TURN_NONE⟩, rest)
  | none => none

/-- uint32_t getStepLengthMs(void): 1000 - 200*(speed-1) in int32 arithmetic,
floored at 200.  The result is non-negative, so the uint32_t cast of the C
return is value-preserving and the result is modelled as Int. -/
def getStepLengthMs (speed : Nat) : Int :=
  let stepLength : Int := 1000 - 200 * ((speed : Int) - 1)
  if stepLength < 200 then 200 else stepLength

/-- void displayScore(void): the list of (col, row) pixels written, in order:
all columns of rows 0 .. score/5 - 1, then columns 0 .. score%5 - 1 of
row score/5. -/
def displayScore (score : Nat) : List (Nat × Nat) :=
  let fullRows := score / 5
  let remainingCols := score % 5
  ((List.range fullRows).flatMap fun row => (List.range 5).map fun col => (col, row))
    ++ (List.range remainingCols).map fun col => (col, fullRows)

/- ---------------------------------------------------------------------------
   Definitions written from the specification text (for the refinement and
   divergence claims), clearly separated from the source embedding above.
--------------------------------------------------------------------------- -/

/-- Written from the spec, section 4.1 movement mechanics, over the tail
sequence ordered nearest-to-head first: non-extend drops the trailing (last)
segment and inserts the vacated head position at the front; extend shifts all
segments outward and inserts the vacated head position at the front. -/
def specMoveSnake (s : Snake) (coords : Coords) (extend : Bool) : Snake :=
  if extend then
    { head := coords, tail := s.head :: s.tail, direction := s.direction }
  else
    { head := coords, tail := s.head :: s.tail.dropLast, direction := s.direction }

/-- Written from the spec: toroidal wraparound of one axis, a component below 0
becomes GRID_SIZE - 1 and a component reaching GRID_SIZE becomes 0. -/
def wrapAxis (x : Int) : Int :=
  if x < 0 then GRID_SIZE - 1 else if GRID_SIZE ≤ x then 0 else x

/-- Written from the spec: the candidate next head cell is the head moved one
step in the current direction with wraparound applied independently per axis. -/
def nextHeadSpec (s : Snake) : Coords :=
  match s.direction with
  | Direction.UP => ⟨wrapAxis (s.head.row - 1), wrapAxis s.head.col⟩
  | Direction.DOWN => ⟨wrapAxis (s.head.row + 1), wrapAxis s.head.col⟩
  | Direction.LEFT => ⟨wrapAxis s.head.row, wrapAxis (s.head.col - 1)⟩
  | Direction.RIGHT => ⟨wrapAxis s.head.row, wrapAxis (s.head.col + 1)⟩

/-- Written from the spec, section 9 / 4.1: the collapsed single-step algorithm
that computes the candidate cell exactly once and branches on its
classification, applying the same mutations as the source branches. -/
def collapsedStep (g : Game) (rng : List Nat) : Option (Game × List Nat) :=
  let candidate := getNextMove g.snake
  if coordsInSnake g.snake candidate && !coordsEqual candidate (tailZero g.snake) then
    some ({ g with status := GameStatus.LOST }, rng)
  else if coordsEqual candidate g.foodCoords then
    if MAX_SNAKE_LENGTH - 1 ≤ g.snake.tailLength then
      some ({ g with snake := moveSnake g.snake candidate true, status := GameStatus.WON }, rng)
    else
      match placeFood { g with snake := moveSnake g.snake candidate true } rng with
      | some (g2, rest) =>
        let newScore := (g2.score + 1) % 256
        let g3 := { g2 with score := newScore }
        let g4 := if newScore % 5 = 0 then { g3 with speed := (g3.speed + 1) % 256 } else g3
        some (g4, rest)
      | none => none
  else
    some ({ g with snake := moveSnake g.snake candidate false }, rng)

/- ---------------------------------------------------------------------------
   Reachability: the states the two globals can be in, following the call
   sites of the program (main loop and button interrupts).
--------------------------------------------------------------------------- -/

/-- States of the globals reachable from initGame under button interrupts,
host-guarded stepGame calls (only while ONGOING) and resetGame (only from a
terminal status), over arbitrary rand() streams. -/
inductive Reachable : ProcState → Prop where
  | init (rng : List Nat) (g : Game) (rest : List Nat)
      (h : initGame rng = some (g, rest)) : Reachable ⟨g, Turn.TURN_NONE⟩
  | btnA (p : ProcState) (hp : Reachable p) : Reachable (handleButtonA p)
  | btnB (p : ProcState) (hp : Reachable p) : Reachable (handleButtonB p)
  | step (p : ProcState) (rng : List Nat) (p' : ProcState) (rest : List Nat)
      (hp : Reachable p) (hs : p.game.status = GameStatus.ONGOING)
      (h : stepGame p rng = some (p', rest)) : Reachable p'
  | reset (p : ProcState) (rng : List Nat) (p' : ProcState) (rest : List Nat)
      (hp : Reachable p) (hs : p.game.status ≠ GameStatus.ONGOING)
      (h : resetGame rng = some (p', rest)) : Reachable p'

/-- Events for concrete executable traces: button A, button B, or a host-loop
step carrying the rand() stream it may consume. -/
inductive Ev where
  | A
  | B
  | S (rng : List Nat)

/-- Run one event, with the host guard on stepping. -/
def runEv (p : ProcState) : Ev → Option ProcState
  | Ev.A => some (handleButtonA p)
  | Ev.B => some (handleButtonB p)
  | Ev.S rng =>
    if p.game.status = GameStatus.ONGOING then
      match stepGame p rng with
      | some (q, _) => some q
      | none => none
    else none

/-- Run a list of events. -/
def run (p : ProcState) : List Ev → Option ProcState
  | [] => some p
  | e :: es =>
    match runEv p e with
    | some q => run q es
    | none => none

/-- The process state right after main calls initGame (currentTurn still holds
its static initializer TURN_NONE). -/
def mkInit (rng : List Nat) : Option ProcState :=
  match initGame rng with
  | some (g, _) => some ⟨g, Turn.TURN_NONE⟩
  | none => none

/-- Run a trace from the initial state. -/
def runFrom (rng : List Nat) (evs : List Ev) : Option ProcState :=
  match mkInit rng with
  | some p => run p evs
  | none => none

/- ---------------------------------------------------------------------------
   Concrete states and traces used as witnesses and counterexamples.
--------------------------------------------------------------------------- -/

/-- Fallback state for Option.getD; never the value actually used. -/
def dummyProc : ProcState :=
  ⟨{ snake := { head := ⟨0, 0⟩, tail := [], direction := Direction.UP },
     foodCoords := ⟨0, 0⟩, speed := 1, status := GameStatus.ONGOING, score := 0 },
   Turn.TURN_NONE⟩

/-- The initial state when the rand() stream opens with 0, 0: food at (0,0). -/
def pInit0 : ProcState :=
  ⟨{ snake := { head := ⟨2, 2⟩, tail := [⟨2, 1⟩], direction := Direction.RIGHT },
     foodCoords := ⟨0, 0⟩, speed := 1, status := GameStatus.ONGOING, score := 0 },
   Turn.TURN_NONE⟩

/-- The state after one plain step from pInit0. -/
def pMove1 : ProcState := ((stepGame pInit0 []).getD (dummyProc, [])).1

/-- The initial state when the rand() stream opens with 2, 3: food at (2,3),
directly in front of the snake. -/
def pInitF : ProcState :=
  ⟨{ snake := { head := ⟨2, 2⟩, tail := [⟨2, 1⟩], direction := Direction.RIGHT },
     foodCoords := ⟨2, 3⟩, speed := 1, status := GameStatus.ONGOING, score := 0 },
   Turn.TURN_NONE⟩

/-- The state after the first eating step from pInitF (new food at (0,0)). -/
def pEat1 : ProcState := ((stepGame pInitF [0, 0]).getD (dummyProc, [])).1

/-- A boustrophedon trace from pInitF: 21 eating steps, each rand() pair
placing the next food directly on the snake's path, with the turns needed to
sweep rows 2, 1, 0, 4, 3 of the grid. -/
def evs21 : List Ev :=
  [Ev.S [2, 4], Ev.S [2, 0], Ev.S [1, 0],
   Ev.A, Ev.S [1, 1],
   Ev.B, Ev.S [1, 2],
   Ev.S [1, 3], Ev.S [1, 4], Ev.S [0, 4],
   Ev.A, Ev.S [0, 3],
   Ev.A, Ev.S [0, 2],
   Ev.S [0, 1], Ev.S [0, 0], Ev.S [4, 0],
   Ev.B, Ev.S [4, 1],
   Ev.B, Ev.S [4, 2],
   Ev.S [4, 3], Ev.S [4, 4], Ev.S [3, 4],
   Ev.A, Ev.S [3, 3],
   Ev.A, Ev.S [3, 2],
   Ev.S [3, 1]]

/-- evs21 plus the 22nd eat, reaching tailLength 23 with only (3,0) free. -/
def evs22 : List Ev := evs21 ++ [Ev.S [3, 0]]

/-- evs22 plus the final step onto the food at (3,0): the FULL branch. -/
def evsFull : List Ev := evs22 ++ [Ev.S []]

/-- The reachable state with tailLength 22 (= MAX_SNAKE_LENGTH - 2), score 21,
head (3,2), food (3,1) straight ahead. -/
def p21 : ProcState := (runFrom [2, 3] evs21).getD dummyProc

/-- The reachable state with tailLength 23 (= MAX_SNAKE_LENGTH - 1), score 22,
head (3,1), food (3,0) straight ahead. -/
def p22 : ProcState := (runFrom [2, 3] evs22).getD dummyProc

/-- The reachable state after the winning FULL step: tailLength 24, WON. -/
def pFull : ProcState := (runFrom [2, 3] evsFull).getD dummyProc

theorem runEv_reachable {p q : ProcState} (hp : Reachable p) (e : Ev)
    (h : runEv p e = some q) : Reachable q := by
  cases e with
  | A =>
    simp only [runEv, Option.some.injEq] at h
    exact h ▸ Reachable.btnA p hp
  | B =>
    simp only [runEv, Option.some.injEq] at h
    exact h ▸ Reachable.btnB p hp
  | S rng =>
    simp only [runEv] at h
    split at h
    case isTrue hs =>
      rcases h2 : stepGame p rng with _ | pr
      · rw [h2] at h; exact absurd h (by simp)
      · rw [h2] at h
        simp only [Option.some.injEq] at h
        exact h ▸ Reachable.step p rng pr.1 pr.2 hp hs (by rw [h2])
    case isFalse => exact absurd h (by simp)

theorem run_reachable {p q : ProcState} (evs : List Ev) (hp : Reachable p)
    (h : run p evs = some q) : Reachable q := by
  induction evs generalizing p with
  | nil =>
    simp only [run, Option.some.injEq] at h
    exact h ▸ hp
  | cons e es ih =>
    simp only [run] at h
    rcases h2 : runEv p e with _ | r
    · rw [h2] at h; exact absurd h (by simp)
    · rw [h2] at h
      exact ih (runEv_reachable hp e h2) h

theorem mkInit_reachable {rng : List Nat} {p : ProcState}
    (h : mkInit rng = some p) : Reachable p := by
  unfold mkInit at h
  rcases h2 : initGame rng with _ | gr
  · rw [h2] at h; exact absurd h (by simp)
  · rw [h2] at h
    simp only [Option.some.injEq] at h
    exact h ▸ Reachable.init rng gr.1 gr.2 (by rw [h2])

theorem runFrom_reachable {rng : List Nat} {evs : List Ev} {p : ProcState}
    (h : runFrom rng evs = some p) : Reachable p := by
  unfold runFrom at h
  rcases h2 : mkInit rng with _ | q
  · rw [h2] at h; exact absurd h (by simp)
  · rw [h2] at h
    exact run_reachable evs (mkInit_reachable h2) h

/- ---------------------------------------------------------------------------
   Basic lemmas about the embedded operations.
--------------------------------------------------------------------------- -/

theorem coordsEqual_iff (a b : Coords) : coordsEqual a b = true ↔ a = b := by
  cases a
  cases b
  simp [coordsEqual, Coords.mk.injEq]

theorem coordsInSnake_true_iff (s : Snake) (c : Coords) :
    coordsInSnake s c = true ↔ (c = s.head ∨ ∃ x ∈ s.tail, c = x) := by
  simp [coordsInSnake, List.any_eq_true, coordsEqual_iff]

theorem coordsInSnake_eq_false_iff (s : Snake) (c : Coords) :
    coordsInSnake s c = false ↔ (c ≠ s.head ∧ ∀ x ∈ s.tail, c ≠ x) := by
  rw [← Bool.not_eq_true, coordsInSnake_true_iff]
  push_neg
  rfl

/-- A coordinate with both components in [0, GRID_SIZE). -/
def inGrid (c : Coords) : Prop :=
  0 ≤ c.row ∧ c.row < GRID_SIZE ∧ 0 ≤ c.col ∧ c.col < GRID_SIZE

instance (c : Coords) : Decidable (inGrid c) := by
  unfold inGrid
  infer_instance

/-- Every coordinate the game stores lies in the grid. -/
def gameCoordsInGrid (g : Game) : Prop :=
  inGrid g.snake.head ∧ (∀ c ∈ g.snake.tail, inGrid c) ∧ inGrid g.foodCoords

instance (g : Game) : Decidable (gameCoordsInGrid g) := by
  unfold gameCoordsInGrid
  infer_instance

theorem getNextMove_eq_spec (s : Snake) (h : inGrid s.head) :
    getNextMove s = nextHeadSpec s := by
  obtain ⟨hr0, hr1, hc0, hc1⟩ := h
  rcases s with ⟨⟨r, c⟩, tl, d⟩
  simp only [GRID_SIZE] at hr0 hr1 hc0 hc1 ⊢
  cases d <;>
    simp only [getNextMove, nextHeadSpec, isOutOfBounds, wraparound, wrapAxis, GRID_SIZE] <;>
    split_ifs <;>
    simp_all [Coords.mk.injEq, decide_eq_true_eq]

theorem nextHeadSpec_inGrid (s : Snake) : inGrid (nextHeadSpec s) := by
  rcases s with ⟨⟨r, c⟩, tl, d⟩
  cases d <;>
    simp only [nextHeadSpec, wrapAxis, inGrid, GRID_SIZE] <;>
    split_ifs <;>
    omega

theorem getNextMove_inGrid (s : Snake) (h : inGrid s.head) : inGrid (getNextMove s) := by
  rw [getNextMove_eq_spec s h]
  exact nextHeadSpec_inGrid s

theorem getRandomCoords_spec (s : Snake) :
    ∀ (rng : List Nat) (c : Coords) (rest : List Nat),
      getRandomCoords s rng = some (c, rest) → coordsInSnake s c = false ∧ inGrid c
  | r1 :: r2 :: rng, c, rest, h => by
    rw [getRandomCoords] at h
    split at h
    · exact getRandomCoords_spec s rng c rest h
    · rename_i hfree
      simp only [Option.some.injEq, Prod.mk.injEq] at h
      obtain ⟨hc, -⟩ := h
      subst hc
      refine ⟨by simpa using hfree, ?_, ?_, ?_, ?_⟩ <;>
        simp [GRID_SIZE] <;> omega
  | [], c, rest, h => by
    rw [show getRandomCoords s [] = none from rfl] at h
    simp at h
  | [r], c, rest, h => by
    rw [show getRandomCoords s [r] = none from rfl] at h
    simp at h

theorem moveSnake_direction (s : Snake) (c : Coords) (e : Bool) :
    (moveSnake s c e).direction = s.direction := by
  cases e <;> rfl

theorem moveSnake_false_tail (s : Snake) (c : Coords) :
    (moveSnake s c false).tail = s.tail.drop 1 ++ [s.head] := rfl

theorem moveSnake_true_tail (s : Snake) (c : Coords) :
    (moveSnake s c true).tail = s.head :: s.tail := rfl

theorem moveSnake_head (s : Snake) (c : Coords) (e : Bool) :
    (moveSnake s c e).head = c := by
  cases e <;> rfl

/- Outcome characterization lemmas: what each getStepOutcome result says about
the branch conditions of the source. -/

theorem outcome_COLLISION {g : Game} (h : getStepOutcome g = StepOutcome.COLLISION) :
    (coordsInSnake g.snake (getNextMove g.snake) &&
      !coordsEqual (getNextMove g.snake) (tailZero g.snake)) = true := by
  unfold getStepOutcome at h
  dsimp only at h
  split at h
  · assumption
  · split at h
    · split at h <;> simp at h
    · simp at h

theorem cond_COLLISION {g : Game}
    (hc : (coordsInSnake g.snake (getNextMove g.snake) &&
      !coordsEqual (getNextMove g.snake) (tailZero g.snake)) = true) :
    getStepOutcome g = StepOutcome.COLLISION := by
  unfold getStepOutcome
  dsimp only
  simp [hc]

theorem outcome_EAT {g : Game} (h : getStepOutcome g = StepOutcome.EAT) :
    (coordsInSnake g.snake (getNextMove g.snake) = false ∨
      getNextMove g.snake = tailZero g.snake) ∧
    getNextMove g.snake = g.foodCoords ∧
    g.snake.tailLength < MAX_SNAKE_LENGTH - 1 := by
  unfold getStepOutcome at h
  dsimp only at h
  split at h
  · simp at h
  · rename_i hc
    split at h
    · rename_i hf
      split at h
      · simp at h
      · rename_i hlen
        refine ⟨?_, (coordsEqual_iff _ _).mp hf, by omega⟩
        simp only [Bool.and_eq_true, Bool.not_eq_true'] at hc
        by_cases hin : coordsInSnake g.snake (getNextMove g.snake) = true
        · right
          have := fun hh => hc ⟨hin, hh⟩
          rcases hb : coordsEqual (getNextMove g.snake) (tailZero g.snake) with _ | _
          · exact absurd hb this
          · exact (coordsEqual_iff _ _).mp hb
        · left
          exact Bool.not_eq_true _ ▸ (by simpa using hin)
    · simp at h

theorem outcome_FULL {g : Game} (h : getStepOutcome g = StepOutcome.FULL) :
    getNextMove g.snake = g.foodCoords ∧
    MAX_SNAKE_LENGTH - 1 ≤ g.snake.tailLength := by
  unfold getStepOutcome at h
  dsimp only at h
  split at h
  · simp at h
  · split at h
    · rename_i hf
      split at h
      · exact ⟨(coordsEqual_iff _ _).mp hf, by assumption⟩
      · simp at h
    · simp at h

theorem outcome_MOVE {g : Game} (h : getStepOutcome g = StepOutcome.MOVE) :
    getNextMove g.snake ≠ g.foodCoords := by
  unfold getStepOutcome at h
  dsimp only at h
  split at h
  · simp at h
  · split at h
    · split at h <;> simp at h
    · rename_i hf
      intro he
      exact hf ((coordsEqual_iff _ _).mpr he)

/- Extraction lemmas for handleStepOutcome on each outcome tag. -/

theorem handle_COLLISION {g : Game} {rng : List Nat} {g2 : Game} {rest : List Nat}
    (h : handleStepOutcome g StepOutcome.COLLISION rng = some (g2, rest)) :
    g2 = { g with status := GameStatus.LOST } ∧ rest = rng := by
  unfold handleStepOutcome at h
  dsimp only at h
  simp only [Option.some.injEq, Prod.mk.injEq] at h
  exact ⟨h.1.symm, h.2.symm⟩

theorem handle_FULL {g : Game} {rng : List Nat} {g2 : Game} {rest : List Nat}
    (h : handleStepOutcome g StepOutcome.FULL rng = some (g2, rest)) :
    g2 = { g with snake := moveSnake g.snake (getNextMove g.snake) true,
                  status := GameStatus.WON } ∧ rest = rng := by
  unfold handleStepOutcome at h
  dsimp only at h
  simp only [Option.some.injEq, Prod.mk.injEq] at h
  exact ⟨h.1.symm, h.2.symm⟩

theorem handle_MOVE {g : Game} {rng : List Nat} {g2 : Game} {rest : List Nat}
    (h : handleStepOutcome g StepOutcome.MOVE rng = some (g2, rest)) :
    g2 = { g with snake := moveSnake g.snake (getNextMove g.snake) false } ∧ rest = rng := by
  unfold handleStepOutcome at h
  dsimp only at h
  simp only [Option.some.injEq, Prod.mk.injEq] at h
  exact ⟨h.1.symm, h.2.symm⟩

theorem handle_EAT {g : Game} {rng : List Nat} {g2 : Game} {rest : List Nat}
    (h : handleStepOutcome g StepOutcome.EAT rng = some (g2, rest)) :
    ∃ c : Coords,
      getRandomCoords (moveSnake g.snake (getNextMove g.snake) true) rng = some (c, rest) ∧
      g2.snake = moveSnake g.snake (getNextMove g.snake) true ∧
      g2.foodCoords = c ∧
      g2.status = g.status ∧
      g2.score = (g.score + 1) % 256 ∧
      g2.speed = (if (g.score + 1) % 256 % 5 = 0 then (g.speed + 1) % 256 else g.speed) := by
  unfold handleStepOutcome at h
  dsimp only at h
  split at h
  · rename_i gE restE heq
    simp only [Option.some.injEq, Prod.mk.injEq] at h
    obtain ⟨hg, hr⟩ := h
    unfold placeFood at heq
    split at heq
    · rename_i c rest2 heq2
      simp only [Option.some.injEq, Prod.mk.injEq] at heq
      obtain ⟨hgE, hrest2⟩ := heq
      subst hrest2
      subst hr
      refine ⟨c, heq2, ?_⟩
      rw [← hg, ← hgE]
      by_cases h5 : (g.score + 1) % 256 % 5 = 0 <;> simp [h5]
    · exact absurd heq (by simp)
  · simp at h

theorem stepGame_eq {p : ProcState} {rng : List Nat} {p2 : ProcState} {rest : List Nat}
    (h : stepGame p rng = some (p2, rest)) :
    handleStepOutcome (applyTurn p) (getStepOutcome (applyTurn p)) rng = some (p2.game, rest) ∧
      p2.currentTurn = Turn.TURN_NONE := by
  unfold stepGame at h
  dsimp only at h
  split at h
  · rename_i g2E restE heq
    simp only [Option.some.injEq, Prod.mk.injEq] at h
    obtain ⟨hp2, hr⟩ := h
    rw [← hp2, ← hr]
    exact ⟨heq, rfl⟩
  · simp at h

theorem applyTurn_fields (p : ProcState) :
    (applyTurn p).snake.head = p.game.snake.head ∧
    (applyTurn p).snake.tail = p.game.snake.tail ∧
    (applyTurn p).foodCoords = p.game.foodCoords ∧
    (applyTurn p).speed = p.game.speed ∧
    (applyTurn p).status = p.game.status ∧
    (applyTurn p).score = p.game.score :=
  ⟨rfl, rfl, rfl, rfl, rfl, rfl⟩

/- ---------------------------------------------------------------------------
   The inductive invariant carried by every reachable state.
--------------------------------------------------------------------------- -/

/-- The invariant of the game globals: the tail is nonempty and bounded (by
MAX_SNAKE_LENGTH - 1 while ONGOING, by MAX_SNAKE_LENGTH outright, the winning
FULL step being the only way to reach MAX_SNAKE_LENGTH); while ONGOING the
score is tailLength - 1, the speed is 1 + score/5 and the food is on a free
cell; the score never exceeds MAX_SNAKE_LENGTH - 2; and every stored
coordinate lies in the grid. -/
def GInv (g : Game) : Prop :=
  1 ≤ g.snake.tailLength ∧
  g.snake.tailLength ≤ 24 ∧
  (g.status = GameStatus.ONGOING →
    g.snake.tailLength ≤ 23 ∧
    g.score = g.snake.tailLength - 1 ∧
    g.speed = 1 + g.score / 5 ∧
    coordsInSnake g.snake g.foodCoords = false) ∧
  g.score ≤ 22 ∧
  gameCoordsInGrid g

theorem initGame_GInv {rng : List Nat} {g : Game} {rest : List Nat}
    (h : initGame rng = some (g, rest)) : GInv g := by
  unfold initGame placeFood at h
  split at h
  · rename_i c rest2 heq
    simp only [Option.some.injEq, Prod.mk.injEq] at h
    obtain ⟨hg, -⟩ := h
    obtain ⟨hfree, hin⟩ := getRandomCoords_spec _ rng c rest2 heq
    rw [← hg]
    refine ⟨?_, ?_, fun _ => ⟨?_, ?_, ?_, hfree⟩, ?_, ?_, ?_, hin⟩
    · simp [Snake.tailLength]
    · simp [Snake.tailLength]
    · simp [Snake.tailLength]
    · simp [Snake.tailLength]
    · simp
    · simp
    · norm_num [inGrid, GRID_SIZE]
    · intro x hx
      simp only [List.mem_singleton] at hx
      subst hx
      norm_num [inGrid, GRID_SIZE]
  · simp at h

theorem handle_GInv {g : Game} {rng : List Nat} {g2 : Game} {rest : List Nat}
    (hInv : GInv g) (hstat : g.status = GameStatus.ONGOING)
    (h : handleStepOutcome g (getStepOutcome g) rng = some (g2, rest)) : GInv g2 := by
  obtain ⟨hlen1, hlen24, hOn, hsc22, hgh, hgt, hgf⟩ := hInv
  obtain ⟨hlen23, hscore, hspeed, hfood⟩ := hOn hstat
  have hnmGrid : inGrid (getNextMove g.snake) := getNextMove_inGrid g.snake hgh
  cases ho : getStepOutcome g with
  | COLLISION =>
    rw [ho] at h
    obtain ⟨hg2, -⟩ := handle_COLLISION h
    subst hg2
    exact ⟨hlen1, hlen24, by simp, hsc22, hgh, hgt, hgf⟩
  | FULL =>
    rw [ho] at h
    obtain ⟨hg2, -⟩ := handle_FULL h
    subst hg2
    have htl : (moveSnake g.snake (getNextMove g.snake) true).tailLength
        = g.snake.tailLength + 1 := by
      simp [Snake.tailLength, moveSnake_true_tail]
    refine ⟨?_, ?_, by simp, hsc22, ?_, ?_, hgf⟩
    · dsimp only
      omega
    · dsimp only
      omega
    · dsimp only
      simpa [moveSnake_head] using hnmGrid
    · dsimp only
      intro c hc
      simp only [moveSnake_true_tail, List.mem_cons] at hc
      rcases hc with hc | hc
      · exact hc ▸ hgh
      · exact hgt c hc
  | MOVE =>
    rw [ho] at h
    have hnf := outcome_MOVE ho
    obtain ⟨hg2, -⟩ := handle_MOVE h
    subst hg2
    have htl : (moveSnake g.snake (getNextMove g.snake) false).tailLength
        = g.snake.tailLength := by
      simp only [Snake.tailLength, moveSnake_false_tail, List.length_append,
        List.length_drop, List.length_cons, List.length_nil]
      simp only [Snake.tailLength] at hlen1
      omega
    refine ⟨?_, ?_, ?_, hsc22, ?_, ?_, hgf⟩
    · dsimp only
      omega
    · dsimp only
      omega
    · intro _
      refine ⟨?_, ?_, ?_, ?_⟩
      · dsimp only
        omega
      · dsimp only
        omega
      · dsimp only
        exact hspeed
      · dsimp only
        rw [coordsInSnake_eq_false_iff] at hfood ⊢
        obtain ⟨hfh, hft⟩ := hfood
        refine ⟨?_, ?_⟩
        · rw [moveSnake_head]
          exact fun he => hnf he.symm
        · intro x hx
          simp only [moveSnake_false_tail, List.mem_append, List.mem_singleton] at hx
          rcases hx with hx | hx
          · exact hft x (List.mem_of_mem_drop hx)
          · exact hx ▸ hfh
    · dsimp only
      simpa [moveSnake_head] using hnmGrid
    · dsimp only
      intro c hc
      simp only [moveSnake_false_tail, List.mem_append, List.mem_singleton] at hc
      rcases hc with hc | hc
      · exact hgt c (List.mem_of_mem_drop hc)
      · exact hc ▸ hgh
  | EAT =>
    rw [ho] at h
    obtain ⟨-, -, hlt⟩ := outcome_EAT ho
    simp only [MAX_SNAKE_LENGTH] at hlt
    obtain ⟨c, heq, hsn, hfc, hst, hscor, hspd⟩ := handle_EAT h
    obtain ⟨hfree, hcin⟩ := getRandomCoords_spec _ rng c rest heq
    have htail : g2.snake.tailLength = g.snake.tailLength + 1 := by
      rw [hsn]
      simp [Snake.tailLength, moveSnake_true_tail]
    have hs256 : (g.score + 1) % 256 = g.score + 1 := by omega
    refine ⟨by omega, by omega, ?_, by omega, ?_, ?_, ?_⟩
    · intro _
      refine ⟨by omega, by omega, ?_, ?_⟩
      · rw [hspd, hscor, hs256]
        split <;> omega
      · rw [hfc, hsn]
        exact hfree
    · rw [hsn]
      simpa [moveSnake_head] using hnmGrid
    · intro x hx
      rw [hsn] at hx
      simp only [moveSnake_true_tail, List.mem_cons] at hx
      rcases hx with hx | hx
      · exact hx ▸ hgh
      · exact hgt x hx
    · rw [hfc]
      exact hcin

theorem reachable_GInv {p : ProcState} (hp : Reachable p) : GInv p.game := by
  induction hp with
  | init rng g rest h => exact initGame_GInv h
  | btnA p hp ih => exact ih
  | btnB p hp ih => exact ih
  | step p rng p2 rest hp hs h ih =>
    obtain ⟨hh, -⟩ := stepGame_eq h
    have hturn : GInv (applyTurn p) := ih
    exact handle_GInv hturn hs hh
  | reset p rng p2 rest hp hs h ih =>
    unfold resetGame at h
    split at h
    · rename_i pr heq
      simp only [Option.some.injEq, Prod.mk.injEq] at h
      obtain ⟨hp2, -⟩ := h
      rw [← hp2]
      exact initGame_GInv (by rw [heq])
    · simp at h

/- ---------------------------------------------------------------------------
   C8: step interval formula.
--------------------------------------------------------------------------- -/

/-- C8: for every speed value the step interval equals
max(200, 1000 - 200*(speed-1)) milliseconds, is at least the 200 ms floor, and
is monotonically non-increasing as speed increases.  Proved for all speed
values, which covers every speed reachable from the initial speed 1. -/
theorem stepLength_formula (speed : Nat) :
    getStepLengthMs speed = max 200 (1000 - 200 * ((speed : Int) - 1)) ∧
      200 ≤ getStepLengthMs speed ∧
      ∀ s2 : Nat, speed ≤ s2 → getStepLengthMs s2 ≤ getStepLengthMs speed := by
  refine ⟨?_, ?_, ?_⟩
  · unfold getStepLengthMs
    dsimp only
    split <;> omega
  · unfold getStepLengthMs
    dsimp only
    split <;> omega
  · intro s2 hle
    unfold getStepLengthMs
    dsimp only
    have : (speed : Int) ≤ (s2 : Int) := by exact_mod_cast hle
    split <;> split <;> omega

/-- Witness for C8 at speed 3 and 4. -/
theorem stepLength_formula_witness :
    (3 : Nat) ≤ 4 ∧ 200 ≤ getStepLengthMs 3 ∧ getStepLengthMs 4 ≤ getStepLengthMs 3 :=
  ⟨by decide, (stepLength_formula 3).2.1, (stepLength_formula 3).2.2 4 (by decide)⟩

/- ---------------------------------------------------------------------------
   C9: classify-then-apply equals the collapsed single-candidate step.
--------------------------------------------------------------------------- -/

/-- C9: getStepOutcome is read-only (it is a pure function of the game in this
embedding, as in the source, which only reads the globals), so the candidate
cell recomputed inside handleStepOutcome coincides with the one used for
classification, and the classify-then-apply pair is observationally equal to
the collapsed single-step algorithm of the spec that computes the candidate
exactly once; stepGame is that collapsed algorithm after the pending turn is
applied and cleared. -/
theorem step_collapsed_equiv :
    (∀ (g : Game) (rng : List Nat),
      handleStepOutcome g (getStepOutcome g) rng = collapsedStep g rng) ∧
    (∀ (p : ProcState) (rng : List Nat),
      stepGame p rng =
        match collapsedStep (applyTurn p) rng with
        | some (g2, rest) => some (⟨g2, Turn.TURN_NONE⟩, rest)
        | none => none) := by
  have key : ∀ (g : Game) (rng : List Nat),
      handleStepOutcome g (getStepOutcome g) rng = collapsedStep g rng := by
    intro g rng
    unfold handleStepOutcome getStepOutcome collapsedStep
    by_cases h1 :
        (coordsInSnake g.snake (getNextMove g.snake) &&
          !coordsEqual (getNextMove g.snake) (tailZero g.snake)) = true
    · simp [h1]
    · simp only [Bool.not_eq_true] at h1
      by_cases h2 : coordsEqual (getNextMove g.snake) g.foodCoords = true
      · by_cases h3 : MAX_SNAKE_LENGTH - 1 ≤ g.snake.tailLength
        · simp [h1, h2, h3]
        · simp [h1, h2, h3]
      · simp only [Bool.not_eq_true] at h2
        simp [h1, h2]
  refine ⟨key, ?_⟩
  intro p rng
  unfold stepGame
  dsimp only
  rw [key]

/- ---------------------------------------------------------------------------
   Projections of applyTurn (only the direction changes) and the collision
   condition split into its two parts.
--------------------------------------------------------------------------- -/

theorem applyTurn_snake_tail (p : ProcState) : (applyTurn p).snake.tail = p.game.snake.tail := rfl

theorem applyTurn_snake_head (p : ProcState) : (applyTurn p).snake.head = p.game.snake.head := rfl

theorem applyTurn_tailLength (p : ProcState) :
    (applyTurn p).snake.tailLength = p.game.snake.tailLength := rfl

theorem applyTurn_foodCoords (p : ProcState) : (applyTurn p).foodCoords = p.game.foodCoords := rfl

theorem applyTurn_status (p : ProcState) : (applyTurn p).status = p.game.status := rfl

theorem applyTurn_score (p : ProcState) : (applyTurn p).score = p.game.score := rfl

theorem applyTurn_speed (p : ProcState) : (applyTurn p).speed = p.game.speed := rfl

theorem coordsInSnake_applyTurn (p : ProcState) (c : Coords) :
    coordsInSnake (applyTurn p).snake c = coordsInSnake p.game.snake c := rfl

theorem parts_of_cond {g : Game}
    (hc : (coordsInSnake g.snake (getNextMove g.snake) &&
      !coordsEqual (getNextMove g.snake) (tailZero g.snake)) = true) :
    coordsInSnake g.snake (getNextMove g.snake) = true ∧
      getNextMove g.snake ≠ tailZero g.snake := by
  simp only [Bool.and_eq_true, Bool.not_eq_true'] at hc
  refine ⟨hc.1, fun he => ?_⟩
  have := hc.2
  rw [(coordsEqual_iff _ _).mpr he] at this
  exact absurd this (by simp)

theorem cond_of_parts {g : Game}
    (hin : coordsInSnake g.snake (getNextMove g.snake) = true)
    (hne : getNextMove g.snake ≠ tailZero g.snake) :
    (coordsInSnake g.snake (getNextMove g.snake) &&
      !coordsEqual (getNextMove g.snake) (tailZero g.snake)) = true := by
  have hbe : coordsEqual (getNextMove g.snake) (tailZero g.snake) = false := by
    rcases hb : coordsEqual (getNextMove g.snake) (tailZero g.snake) with _ | _
    · rfl
    · exact absurd ((coordsEqual_iff _ _).mp hb) hne
  rw [hin, hbe]
  rfl

/- ---------------------------------------------------------------------------
   Reachability of the concrete states.
--------------------------------------------------------------------------- -/

theorem reach_pInit0 : Reachable pInit0 :=
  Reachable.init [0, 0] pInit0.game [] (by decide)

theorem reach_pInitF : Reachable pInitF :=
  Reachable.init [2, 3] pInitF.game [] (by decide)

theorem runFrom_evs21 : runFrom [2, 3] evs21 = some p21 := by decide

theorem runFrom_evs22 : runFrom [2, 3] evs22 = some p22 := by decide

theorem runFrom_evsFull : runFrom [2, 3] evsFull = some pFull := by decide

theorem reach_p21 : Reachable p21 := runFrom_reachable runFrom_evs21

theorem reach_p22 : Reachable p22 := runFrom_reachable runFrom_evs22

theorem reach_pFull : Reachable pFull := runFrom_reachable runFrom_evsFull

/- ---------------------------------------------------------------------------
   C1: losing steps are exactly the non-exempt self-collisions.
--------------------------------------------------------------------------- -/

/-- C1: from a reachable ONGOING state, a step sets the status to LOST exactly
when the candidate next head cell is a snake-occupied cell different from
tail[0] (the segment a plain move vacates this tick); when the candidate
equals that segment and is not the food cell the step is a plain move and the
status stays ONGOING; and on a LOST step nothing but the status changes after
the pending turn was applied. -/
theorem step_lost_iff_collision (p : ProcState) (rng : List Nat) (p' : ProcState)
    (rest : List Nat) (_hp : Reachable p) (hs : p.game.status = GameStatus.ONGOING)
    (hstep : stepGame p rng = some (p', rest)) :
    (p'.game.status = GameStatus.LOST ↔
      (coordsInSnake (applyTurn p).snake (getNextMove (applyTurn p).snake) = true ∧
        getNextMove (applyTurn p).snake ≠ tailZero (applyTurn p).snake)) ∧
    (getNextMove (applyTurn p).snake = tailZero (applyTurn p).snake →
      getNextMove (applyTurn p).snake ≠ (applyTurn p).foodCoords →
      (p'.game.status = GameStatus.ONGOING ∧
        p'.game = { applyTurn p with
          snake := moveSnake (applyTurn p).snake (getNextMove (applyTurn p).snake) false })) ∧
    (p'.game.status = GameStatus.LOST →
      p'.game = { applyTurn p with status := GameStatus.LOST }) := by
  obtain ⟨hh, -⟩ := stepGame_eq hstep
  have hst1 : (applyTurn p).status = GameStatus.ONGOING := hs
  cases ho : getStepOutcome (applyTurn p) with
  | COLLISION =>
    rw [ho] at hh
    obtain ⟨hg2, -⟩ := handle_COLLISION hh
    obtain ⟨hin, hne⟩ := parts_of_cond (outcome_COLLISION ho)
    refine ⟨⟨fun _ => ⟨hin, hne⟩, fun _ => by rw [hg2]⟩,
      fun he _ => absurd he hne, fun _ => hg2⟩
  | FULL =>
    rw [ho] at hh
    obtain ⟨hg2, -⟩ := handle_FULL hh
    have hnl : p'.game.status = GameStatus.WON := by rw [hg2]
    have hcond : ¬ ((coordsInSnake (applyTurn p).snake (getNextMove (applyTurn p).snake) &&
        !coordsEqual (getNextMove (applyTurn p).snake) (tailZero (applyTurn p).snake)) = true) :=
      fun hc => absurd ((cond_COLLISION hc).symm.trans ho) (by decide)
    refine ⟨⟨fun hl => ?_, fun hparts => ?_⟩, fun he hnf => ?_, fun hl => ?_⟩
    · rw [hnl] at hl
      exact absurd hl (by decide)
    · exact absurd (cond_of_parts hparts.1 hparts.2) hcond
    · exact absurd (outcome_FULL ho).1 hnf
    · rw [hnl] at hl
      exact absurd hl (by decide)
  | EAT =>
    rw [ho] at hh
    obtain ⟨c, heq, hsn, hfc, hstt, hscor, hspd⟩ := handle_EAT hh
    have hnl : p'.game.status = GameStatus.ONGOING := by rw [hstt]; exact hst1
    have hcond : ¬ ((coordsInSnake (applyTurn p).snake (getNextMove (applyTurn p).snake) &&
        !coordsEqual (getNextMove (applyTurn p).snake) (tailZero (applyTurn p).snake)) = true) :=
      fun hc => absurd ((cond_COLLISION hc).symm.trans ho) (by decide)
    refine ⟨⟨fun hl => ?_, fun hparts => ?_⟩, fun he hnf => ?_, fun hl => ?_⟩
    · rw [hnl] at hl
      exact absurd hl (by decide)
    · exact absurd (cond_of_parts hparts.1 hparts.2) hcond
    · exact absurd (outcome_EAT ho).2.1 hnf
    · rw [hnl] at hl
      exact absurd hl (by decide)
  | MOVE =>
    rw [ho] at hh
    obtain ⟨hg2, -⟩ := handle_MOVE hh
    have hnl : p'.game.status = GameStatus.ONGOING := by rw [hg2]; exact hst1
    have hcond : ¬ ((coordsInSnake (applyTurn p).snake (getNextMove (applyTurn p).snake) &&
        !coordsEqual (getNextMove (applyTurn p).snake) (tailZero (applyTurn p).snake)) = true) :=
      fun hc => absurd ((cond_COLLISION hc).symm.trans ho) (by decide)
    refine ⟨⟨fun hl => ?_, fun hparts => ?_⟩, fun he hnf => ⟨hnl, hg2⟩, fun hl => ?_⟩
    · rw [hnl] at hl
      exact absurd hl (by decide)
    · exact absurd (cond_of_parts hparts.1 hparts.2) hcond
    · rw [hnl] at hl
      exact absurd hl (by decide)

/-- Witness for C1: the plain first step of pInit0. -/
theorem step_lost_iff_collision_witness :
    pInit0.game.status = GameStatus.ONGOING ∧
    stepGame pInit0 [] = some (pMove1, []) ∧
    ((pMove1.game.status = GameStatus.LOST ↔
      (coordsInSnake (applyTurn pInit0).snake (getNextMove (applyTurn pInit0).snake) = true ∧
        getNextMove (applyTurn pInit0).snake ≠ tailZero (applyTurn pInit0).snake)) ∧
    (getNextMove (applyTurn pInit0).snake = tailZero (applyTurn pInit0).snake →
      getNextMove (applyTurn pInit0).snake ≠ (applyTurn pInit0).foodCoords →
      (pMove1.game.status = GameStatus.ONGOING ∧
        pMove1.game = { applyTurn pInit0 with
          snake := moveSnake (applyTurn pInit0).snake (getNextMove (applyTurn pInit0).snake) false })) ∧
    (pMove1.game.status = GameStatus.LOST →
      pMove1.game = { applyTurn pInit0 with status := GameStatus.LOST })) :=
  ⟨rfl, by decide, step_lost_iff_collision pInit0 [] pMove1 [] reach_pInit0 rfl (by decide)⟩

/- ---------------------------------------------------------------------------
   C2: the movement mechanics of moveSnake against the spec ordering.
--------------------------------------------------------------------------- -/

/-- C2 (code bug evidence): the two branches of moveSnake use opposite array
orderings.  Extending inserts the old head at index 0 (nearest-to-head first,
as the spec orders the tail), but a non-extend move drops index 0 and appends
the old head at the top.  Concretely, from the initial state with food at
(2,3), eating it and then moving one more cell right leaves the program tail
[(2,1), (2,3)] — the cell (2,2) adjacent to the head has been vacated and the
stale far cell (2,1) kept, a discontiguous body — while the spec movement
mechanics (specMoveSnake) predict [(2,3), (2,2)].  The last conjunct applies
moveSnake directly to the same post-eat snake. -/
theorem moveSnake_ordering_bug :
    ((runFrom [2, 3] [Ev.S [0, 0], Ev.S []]).map fun q => q.game.snake.tail)
        = some [⟨2, 1⟩, ⟨2, 3⟩] ∧
    (specMoveSnake (specMoveSnake
        { head := ⟨2, 2⟩, tail := [⟨2, 1⟩], direction := Direction.RIGHT }
        ⟨2, 3⟩ true) ⟨2, 4⟩ false).tail = [⟨2, 3⟩, ⟨2, 2⟩] ∧
    (moveSnake (specMoveSnake
        { head := ⟨2, 2⟩, tail := [⟨2, 1⟩], direction := Direction.RIGHT }
        ⟨2, 3⟩ true) ⟨2, 4⟩ false).tail = [⟨2, 1⟩, ⟨2, 3⟩] ∧
    ([⟨2, 1⟩, ⟨2, 3⟩] : List Coords) ≠ [⟨2, 3⟩, ⟨2, 2⟩] := by
  decide

/- ---------------------------------------------------------------------------
   C3: the tail-length bound.
--------------------------------------------------------------------------- -/

/-- C3 counterexample: a reachable state (the winning FULL step of the
boustrophedon trace) whose tailLength is 24, exceeding MAX_SNAKE_LENGTH - 1. -/
theorem tailLength_exceeds_bound :
    ∃ p : ProcState, Reachable p ∧ MAX_SNAKE_LENGTH - 1 < p.game.snake.tailLength :=
  ⟨pFull, reach_pFull, by decide⟩

/-- C3 (amended): in every reachable state tailLength ≤ MAX_SNAKE_LENGTH, and
in every reachable ONGOING state tailLength ≤ MAX_SNAKE_LENGTH - 1; the FULL
branch grows the snake to exactly MAX_SNAKE_LENGTH tail segments on the
winning step, which is terminal. -/
theorem tailLength_bounds (p : ProcState) (hp : Reachable p) :
    p.game.snake.tailLength ≤ MAX_SNAKE_LENGTH ∧
    (p.game.status = GameStatus.ONGOING →
      p.game.snake.tailLength ≤ MAX_SNAKE_LENGTH - 1) := by
  obtain ⟨-, h24, hOn, -, -⟩ := reachable_GInv hp
  exact ⟨by simpa [MAX_SNAKE_LENGTH] using h24,
    fun hs => by simpa [MAX_SNAKE_LENGTH] using (hOn hs).1⟩

/-- Witness for C3 (amended) at the initial state pInit0. -/
theorem tailLength_bounds_witness :
    pInit0.game.snake.tailLength ≤ MAX_SNAKE_LENGTH ∧
    (pInit0.game.status = GameStatus.ONGOING →
      pInit0.game.snake.tailLength ≤ MAX_SNAKE_LENGTH - 1) :=
  tailLength_bounds pInit0 reach_pInit0

/- ---------------------------------------------------------------------------
   C4: the winning full step.
--------------------------------------------------------------------------- -/

/-- C4 counterexample: a reachable ONGOING state with
tailLength = MAX_SNAKE_LENGTH - 2 whose candidate next head cell is the food
cell, from which one step leaves the status ONGOING (an EAT, not a win). -/
theorem eat_at_tailLength22_not_won :
    ∃ p : ProcState, Reachable p ∧ p.game.status = GameStatus.ONGOING ∧
      p.game.snake.tailLength = MAX_SNAKE_LENGTH - 2 ∧
      getNextMove (applyTurn p).snake = (applyTurn p).foodCoords ∧
      ((stepGame p [3, 0]).map fun q => q.1.game.status) = some GameStatus.ONGOING :=
  ⟨p21, reach_p21, by decide, by decide, by decide, by decide⟩

/-- C4 (amended): from any reachable ONGOING state with
tailLength = MAX_SNAKE_LENGTH - 1 whose candidate next head cell is the food
cell, one step succeeds without consuming random input, sets the status to
WON, grows the snake by exactly one segment and places no new food. -/
theorem full_step_wins (p : ProcState) (rng : List Nat) (hp : Reachable p)
    (hs : p.game.status = GameStatus.ONGOING)
    (htl : p.game.snake.tailLength = MAX_SNAKE_LENGTH - 1)
    (hf : getNextMove (applyTurn p).snake = (applyTurn p).foodCoords) :
    ∃ p' : ProcState, stepGame p rng = some (p', rng) ∧
      p'.game.status = GameStatus.WON ∧
      p'.game.snake.tailLength = p.game.snake.tailLength + 1 ∧
      p'.game.foodCoords = p.game.foodCoords := by
  obtain ⟨-, -, hOn, -, -⟩ := reachable_GInv hp
  obtain ⟨-, -, -, hfood⟩ := hOn hs
  have hin : coordsInSnake (applyTurn p).snake (getNextMove (applyTurn p).snake) = false := by
    rw [hf]
    exact hfood
  have ho : getStepOutcome (applyTurn p) = StepOutcome.FULL := by
    unfold getStepOutcome
    dsimp only
    have h1 : (coordsInSnake (applyTurn p).snake (getNextMove (applyTurn p).snake) &&
        !coordsEqual (getNextMove (applyTurn p).snake) (tailZero (applyTurn p).snake)) = false := by
      rw [hin]
      rfl
    have h2 : coordsEqual (getNextMove (applyTurn p).snake) ((applyTurn p).foodCoords) = true :=
      (coordsEqual_iff _ _).mpr hf
    have h3 : MAX_SNAKE_LENGTH - 1 ≤ (applyTurn p).snake.tailLength := by
      rw [applyTurn_tailLength, htl]
    simp [h1, h2, h3]
  refine ⟨⟨{ applyTurn p with
      snake := moveSnake (applyTurn p).snake (getNextMove (applyTurn p).snake) true,
      status := GameStatus.WON }, Turn.TURN_NONE⟩, ?_, rfl, ?_, rfl⟩
  · unfold stepGame
    dsimp only
    rw [ho]
    rfl
  · show (moveSnake (applyTurn p).snake (getNextMove (applyTurn p).snake) true).tailLength
      = p.game.snake.tailLength + 1
    simp [Snake.tailLength, moveSnake_true_tail, applyTurn_snake_tail]

/-- Witness for C4 (amended) at the reachable state p22 with tailLength 23 and
the food cell straight ahead. -/
theorem full_step_wins_witness :
    p22.game.status = GameStatus.ONGOING ∧
    p22.game.snake.tailLength = MAX_SNAKE_LENGTH - 1 ∧
    getNextMove (applyTurn p22).snake = (applyTurn p22).foodCoords ∧
    (∃ p' : ProcState, stepGame p22 [] = some (p', []) ∧
      p'.game.status = GameStatus.WON ∧
      p'.game.snake.tailLength = p22.game.snake.tailLength + 1 ∧
      p'.game.foodCoords = p22.game.foodCoords) :=
  ⟨by decide, by decide, by decide,
    full_step_wins p22 [] reach_p22 (by decide) (by decide) (by decide)⟩

/- ---------------------------------------------------------------------------
   C5: effects of an eating step below the full length.
--------------------------------------------------------------------------- -/

/-- C5: from a reachable ONGOING state whose candidate next head cell is the
food cell and whose snake is below the maximum extendable length, a successful
step grows the tail by exactly 1, increments the score by exactly 1, increments
the speed by 1 exactly when the new score is a multiple of 5, and the newly
placed food cell is not occupied by the snake after the move. -/
theorem eat_step_effects (p : ProcState) (rng : List Nat) (p' : ProcState) (rest : List Nat)
    (hp : Reachable p) (hs : p.game.status = GameStatus.ONGOING)
    (hf : getNextMove (applyTurn p).snake = (applyTurn p).foodCoords)
    (htl : p.game.snake.tailLength < MAX_SNAKE_LENGTH - 1)
    (hstep : stepGame p rng = some (p', rest)) :
    p'.game.snake.tailLength = p.game.snake.tailLength + 1 ∧
    p'.game.score = p.game.score + 1 ∧
    (p'.game.speed = p.game.speed + 1 ↔ p'.game.score % 5 = 0) ∧
    coordsInSnake p'.game.snake p'.game.foodCoords = false := by
  obtain ⟨hh, -⟩ := stepGame_eq hstep
  obtain ⟨-, -, hOn, hsc22, -⟩ := reachable_GInv hp
  obtain ⟨-, -, hspeed, hfood⟩ := hOn hs
  simp only [MAX_SNAKE_LENGTH] at htl
  have hin : coordsInSnake (applyTurn p).snake (getNextMove (applyTurn p).snake) = false := by
    rw [hf]
    exact hfood
  have ho : getStepOutcome (applyTurn p) = StepOutcome.EAT := by
    unfold getStepOutcome
    dsimp only
    have h1 : (coordsInSnake (applyTurn p).snake (getNextMove (applyTurn p).snake) &&
        !coordsEqual (getNextMove (applyTurn p).snake) (tailZero (applyTurn p).snake)) = false := by
      rw [hin]
      rfl
    have h2 : coordsEqual (getNextMove (applyTurn p).snake) ((applyTurn p).foodCoords) = true :=
      (coordsEqual_iff _ _).mpr hf
    have h3 : ¬ (MAX_SNAKE_LENGTH - 1 ≤ (applyTurn p).snake.tailLength) := by
      rw [applyTurn_tailLength]
      simp only [MAX_SNAKE_LENGTH]
      omega
    simp [h1, h2, h3]
  rw [ho] at hh
  obtain ⟨c, heq, hsn, hfc, hstt, hscor, hspd⟩ := handle_EAT hh
  obtain ⟨hfree, -⟩ := getRandomCoords_spec _ rng c rest heq
  have hs256 : (p.game.score + 1) % 256 = p.game.score + 1 := by omega
  have hsp5 : p.game.speed ≤ 5 := by
    rw [hspeed]
    omega
  simp only [applyTurn_score, applyTurn_speed] at hscor hspd
  refine ⟨?_, ?_, ?_, ?_⟩
  · rw [hsn]
    simp [Snake.tailLength, moveSnake_true_tail, applyTurn_snake_tail]
  · rw [hscor]
    exact hs256
  · rw [hspd, hscor, hs256]
    split <;> constructor <;> intro h0 <;> omega
  · rw [hfc, hsn]
    exact hfree

/-- Witness for C5: the first eating step from pInitF. -/
theorem eat_step_effects_witness :
    pInitF.game.status = GameStatus.ONGOING ∧
    getNextMove (applyTurn pInitF).snake = (applyTurn pInitF).foodCoords ∧
    pInitF.game.snake.tailLength < MAX_SNAKE_LENGTH - 1 ∧
    stepGame pInitF [0, 0] = some (pEat1, []) ∧
    (pEat1.game.snake.tailLength = pInitF.game.snake.tailLength + 1 ∧
     pEat1.game.score = pInitF.game.score + 1 ∧
     (pEat1.game.speed = pInitF.game.speed + 1 ↔ pEat1.game.score % 5 = 0) ∧
     coordsInSnake pEat1.game.snake pEat1.game.foodCoords = false) :=
  ⟨rfl, by decide, by decide, by decide,
    eat_step_effects pInitF [0, 0] pEat1 [] reach_pInitF rfl (by decide) (by decide) (by decide)⟩

/- ---------------------------------------------------------------------------
   C6: the pending-turn slot is last-write-wins and consumed once.
--------------------------------------------------------------------------- -/

/-- C6: queueing LEFT (button A) and then RIGHT (button B) before a single
step leaves the direction equal to the original direction turned RIGHT per the
turn table (UP to RIGHT, DOWN to LEFT, LEFT to UP, RIGHT to DOWN) — the LEFT
intent is overwritten — and after the step the pending slot is TURN_NONE. -/
theorem queue_last_write_wins (p : ProcState) (rng : List Nat) (p' : ProcState)
    (rest : List Nat)
    (hstep : stepGame (handleButtonB (handleButtonA p)) rng = some (p', rest)) :
    p'.game.snake.direction =
      (match p.game.snake.direction with
        | Direction.UP => Direction.RIGHT
        | Direction.DOWN => Direction.LEFT
        | Direction.LEFT => Direction.UP
        | Direction.RIGHT => Direction.DOWN) ∧
    p'.currentTurn = Turn.TURN_NONE := by
  obtain ⟨hh, hturn⟩ := stepGame_eq hstep
  have hdir : p'.game.snake.direction
      = (applyTurn (handleButtonB (handleButtonA p))).snake.direction := by
    cases ho : getStepOutcome (applyTurn (handleButtonB (handleButtonA p))) with
    | COLLISION =>
      rw [ho] at hh
      obtain ⟨hg2, -⟩ := handle_COLLISION hh
      rw [hg2]
    | FULL =>
      rw [ho] at hh
      obtain ⟨hg2, -⟩ := handle_FULL hh
      rw [hg2]
      exact moveSnake_direction _ _ _
    | MOVE =>
      rw [ho] at hh
      obtain ⟨hg2, -⟩ := handle_MOVE hh
      rw [hg2]
      exact moveSnake_direction _ _ _
    | EAT =>
      rw [ho] at hh
      obtain ⟨c, -, hsn, -, -, -, -⟩ := handle_EAT hh
      rw [hsn]
      exact moveSnake_direction _ _ _
  rw [hdir]
  refine ⟨?_, hturn⟩
  show turnSnake p.game.snake.direction Turn.TURN_RIGHT = _
  cases p.game.snake.direction <;> rfl

/-- Witness for C6: pInit0 (direction RIGHT) turned to DOWN by A then B then
one step. -/
theorem queue_last_write_wins_witness :
    stepGame (handleButtonB (handleButtonA pInit0)) []
        = some (((stepGame (handleButtonB (handleButtonA pInit0)) []).getD (dummyProc, [])).1, []) ∧
    (((stepGame (handleButtonB (handleButtonA pInit0)) []).getD (dummyProc, [])).1.game.snake.direction
        = Direction.DOWN ∧
      ((stepGame (handleButtonB (handleButtonA pInit0)) []).getD (dummyProc, [])).1.currentTurn
        = Turn.TURN_NONE) :=
  ⟨by decide,
    queue_last_write_wins pInit0 []
      ((stepGame (handleButtonB (handleButtonA pInit0)) []).getD (dummyProc, [])).1 []
      (by decide)⟩

/- ---------------------------------------------------------------------------
   C7: wraparound and the in-grid guarantee.
--------------------------------------------------------------------------- -/

/-- C7: for every snake whose head lies in the grid, the candidate next head
cell computed by getNextMove is exactly the head moved one step in the current
direction with toroidal wraparound applied independently per axis
(nextHeadSpec), and it lies in the grid; moreover every coordinate stored by
any reachable state (head, tail cells, food) lies in [0, GRID_SIZE) on both
axes, so the out-of-range situation the spec calls a logic defect never
arises. -/
theorem nextMove_wraps_and_coords_in_grid :
    (∀ s : Snake, inGrid s.head →
      getNextMove s = nextHeadSpec s ∧ inGrid (getNextMove s)) ∧
    (∀ p : ProcState, Reachable p → gameCoordsInGrid p.game) := by
  refine ⟨fun s h => ⟨getNextMove_eq_spec s h, getNextMove_inGrid s h⟩, ?_⟩
  intro p hp
  obtain ⟨-, -, -, -, hgrid⟩ := reachable_GInv hp
  exact hgrid

/-- Witness for C7: the two wraparound examples of the spec, and the initial
state pInit0. -/
theorem nextMove_wraps_witness :
    getNextMove { head := ⟨0, 2⟩, tail := [], direction := Direction.UP } = (⟨4, 2⟩ : Coords) ∧
    getNextMove { head := ⟨2, 4⟩, tail := [], direction := Direction.RIGHT } = (⟨2, 0⟩ : Coords) ∧
    gameCoordsInGrid pInit0.game := by
  have h := nextMove_wraps_and_coords_in_grid
  refine ⟨?_, ?_, h.2 pInit0 reach_pInit0⟩
  · rw [(h.1 { head := ⟨0, 2⟩, tail := [], direction := Direction.UP }
      (by norm_num [inGrid, GRID_SIZE])).1]
    decide
  · rw [(h.1 { head := ⟨2, 4⟩, tail := [], direction := Direction.RIGHT }
      (by norm_num [inGrid, GRID_SIZE])).1]
    decide

/- ---------------------------------------------------------------------------
   C10: score invariant and displayScore bounds.
--------------------------------------------------------------------------- -/

/-- C10: in every reachable ONGOING state the score equals tailLength - 1; the
score never exceeds MAX_SNAKE_LENGTH - 2 in any reachable state; and
displayScore only writes pixels whose column and row are both below 5. -/
theorem score_tail_invariant_display (p : ProcState) (hp : Reachable p) :
    (p.game.status = GameStatus.ONGOING →
      p.game.score = p.game.snake.tailLength - 1) ∧
    p.game.score ≤ MAX_SNAKE_LENGTH - 2 ∧
    ∀ pix ∈ displayScore p.game.score, pix.1 < 5 ∧ pix.2 < 5 := by
  obtain ⟨-, -, hOn, hsc22, -⟩ := reachable_GInv hp
  refine ⟨fun hs => (hOn hs).2.1, by simpa [MAX_SNAKE_LENGTH] using hsc22, ?_⟩
  intro pix hpix
  unfold displayScore at hpix
  dsimp only at hpix
  simp only [List.mem_append, List.mem_flatMap, List.mem_map, List.mem_range] at hpix
  rcases hpix with ⟨row, hrow, col, hcol, hpr⟩ | ⟨col, hcol, hpr⟩
  · rw [← hpr]
    constructor
    · omega
    · show row < 5
      omega
  · rw [← hpr]
    constructor
    · omega
    · show p.game.score / 5 < 5
      omega

/-- Witness for C10 at the reachable state p21 with score 21. -/
theorem score_tail_invariant_display_witness :
    (p21.game.status = GameStatus.ONGOING →
      p21.game.score = p21.game.snake.tailLength - 1) ∧
    p21.game.score ≤ MAX_SNAKE_LENGTH - 2 ∧
    ∀ pix ∈ displayScore p21.game.score, pix.1 < 5 ∧ pix.2 < 5 :=
  score_tail_invariant_display p21 reach_p21
